import Mathlib

/-
Verification of the tosi image store against its specification.

The Go sources are shallowly embedded: strings are lists of characters
where splitting matters and `String` elsewhere; filesystem and network
effects are made explicit as input parameters (success flags, stream
contents) and output records (resulting file contents, emitted actions).
Each embedded definition mirrors one Go function and carries its name.
-/

namespace Tosi

/-! ## Go string helpers (strings.Contains / strings.Split for a
one-character separator), used by util.ParseImageSpec. -/

/-- strings.Contains(s, c) for a one-character separator. -/
def goContains (c : Char) (s : List Char) : Bool := s.contains c

/-- strings.Split(s, c) for a one-character separator: splits around every
occurrence of c; a string without c yields the one-element list [s]. -/
def goSplit (c : Char) : List Char → List (List Char)
  | [] => [[]]
  | x :: xs =>
    match goSplit c xs with
    | [] => [[]]
    | p :: ps => if x == c then [] :: p :: ps else (x :: p) :: ps

/-- The result of a split has exactly two parts, as the Go code tests with
len(parts) != 2 before using parts[0] and parts[1]. -/
def twoParts : List (List Char) → Option (List Char × List Char)
  | [a, b] => some (a, b)
  | _ => none

theorem goSplit_ne_nil (c : Char) (s : List Char) : goSplit c s ≠ [] := by
  cases s with
  | nil => simp [goSplit]
  | cons x xs =>
    simp only [goSplit]
    cases goSplit c xs with
    | nil => simp
    | cons p ps =>
      by_cases h : x == c <;> simp [h]

theorem twoParts_eq_none {xs : List (List Char)} :
    twoParts xs = none ↔ xs.length ≠ 2 := by
  match xs with
  | [] => simp [twoParts]
  | [a] => simp [twoParts]
  | [a, b] => simp [twoParts]
  | a :: b :: c :: rest => simp [twoParts]

theorem twoParts_eq_some {xs : List (List Char)} {a b : List Char} :
    twoParts xs = some (a, b) ↔ xs = [a, b] := by
  match xs with
  | [] => simp [twoParts]
  | [x] => simp [twoParts]
  | [x, y] => simp [twoParts]
  | x :: y :: z :: rest => simp [twoParts]

/-! ## util.ParseImageSpec (src/pkg/util/image.go)

The digest library (github.com/opencontainers/go-digest, an external
dependency) is abstracted as a validity test digestOk; on success
digest.Parse returns the input string unchanged (d.String() = s). -/

/-- The (repo, reference) pair returned by ParseImageSpec. -/
structure ParsedImage where
  repo : List Char
  reference : List Char
deriving DecidableEq, Repr

/-- util.ParseImageSpec: split off an optional @digest suffix (authoritative
when present and valid), then an optional :tag suffix (used only when no
digest was given), defaulting the reference to "latest". -/
def ParseImageSpec (digestOk : List Char → Bool) (image : List Char) :
    Except Unit ParsedImage :=
  if goContains '@' image then
    match twoParts (goSplit '@' image) with
    | none => .error ()
    | some (repo1, dgest) =>
      if digestOk dgest then
        if goContains ':' repo1 then
          match twoParts (goSplit ':' repo1) with
          | none => .error ()
          | some (repo2, tag) =>
            if dgest == [] then .ok ⟨repo2, tag⟩ else .ok ⟨repo2, dgest⟩
        else .ok ⟨repo1, dgest⟩
      else .error ()
  else
    if goContains ':' image then
      match twoParts (goSplit ':' image) with
      | none => .error ()
      | some (repo1, tag) => .ok ⟨repo1, tag⟩
    else .ok ⟨image, "latest".toList⟩

/-- C8: for every image string, ParseImageSpec returns a reference equal to
the parsed digest when an @digest suffix is present (any :tag present is
discarded), equal to the tag when only a :tag suffix is present, and
"latest" when neither is present; it returns an error exactly when the @ or
: split yields other than two parts, or when the digest after @ does not
parse. (The case split below is exhaustive, so the error cases listed are
the only ones.) -/
theorem ParseImageSpec_reference_rules (digestOk : List Char → Bool)
    (h0 : digestOk [] = false) (image : List Char) :
    (goContains '@' image = true →
      ((goSplit '@' image).length ≠ 2 → ParseImageSpec digestOk image = .error ()) ∧
      (∀ r d, goSplit '@' image = [r, d] →
        (digestOk d = false → ParseImageSpec digestOk image = .error ()) ∧
        (digestOk d = true →
          (goContains ':' r = false → ParseImageSpec digestOk image = .ok ⟨r, d⟩) ∧
          (goContains ':' r = true →
            ((goSplit ':' r).length ≠ 2 → ParseImageSpec digestOk image = .error ()) ∧
            (∀ r2 t, goSplit ':' r = [r2, t] →
              ParseImageSpec digestOk image = .ok ⟨r2, d⟩))))) ∧
    (goContains '@' image = false →
      (goContains ':' image = false →
        ParseImageSpec digestOk image = .ok ⟨image, "latest".toList⟩) ∧
      (goContains ':' image = true →
        ((goSplit ':' image).length ≠ 2 → ParseImageSpec digestOk image = .error ()) ∧
        (∀ r t, goSplit ':' image = [r, t] →
          ParseImageSpec digestOk image = .ok ⟨r, t⟩))) := by
  constructor
  · intro hat
    constructor
    · intro hlen
      have h2 : twoParts (goSplit '@' image) = none := twoParts_eq_none.mpr hlen
      simp [ParseImageSpec, hat, h2]
    · intro r d hsplit
      have h2 : twoParts (goSplit '@' image) = some (r, d) :=
        twoParts_eq_some.mpr hsplit
      constructor
      · intro hd
        simp [ParseImageSpec, hat, h2, hd]
      · intro hd
        have hdne : d ≠ [] := by
          intro hnil
          rw [hnil, h0] at hd
          exact Bool.false_ne_true hd
        have hdbeq : (d == ([] : List Char)) = false :=
          beq_eq_false_iff_ne.mpr hdne
        constructor
        · intro hcol
          simp [ParseImageSpec, hat, h2, hd, hcol]
        · intro hcol
          constructor
          · intro hlen2
            have h3 : twoParts (goSplit ':' r) = none := twoParts_eq_none.mpr hlen2
            simp [ParseImageSpec, hat, h2, hd, hcol, h3]
          · intro r2 t hsplit2
            have h3 : twoParts (goSplit ':' r) = some (r2, t) :=
              twoParts_eq_some.mpr hsplit2
            simp [ParseImageSpec, hat, h2, hd, hcol, h3, hdbeq]
  · intro hat
    constructor
    · intro hcol
      simp [ParseImageSpec, hat, hcol]
    · intro hcol
      constructor
      · intro hlen
        have h3 : twoParts (goSplit ':' image) = none := twoParts_eq_none.mpr hlen
        simp [ParseImageSpec, hat, hcol, h3]
      · intro r t hsplit
        have h3 : twoParts (goSplit ':' image) = some (r, t) :=
          twoParts_eq_some.mpr hsplit
        simp [ParseImageSpec, hat, hcol, h3]

/-- Witness for C8: on the concrete input "repo:tag@dgst" with a digest
validator that accepts any non-empty string, the reference is the digest and
the tag is discarded. -/
theorem ParseImageSpec_reference_rules_witness :
    (fun (l : List Char) => !l.isEmpty) [] = false ∧
    ParseImageSpec (fun (l : List Char) => !l.isEmpty) "repo:tag@dgst".toList =
      .ok ⟨"repo".toList, "dgst".toList⟩ := by
  refine ⟨rfl, ?_⟩
  have h := ParseImageSpec_reference_rules (fun (l : List Char) => !l.isEmpty)
    rfl "repo:tag@dgst".toList
  have h1 := (h.1 (by decide)).2 "repo:tag".toList "dgst".toList (by decide)
  have h2 := (h1.2 (by decide)).2 (by decide)
  exact h2.2 "repo".toList "tag".toList (by decide)

/-! ## Manifest abstraction (src/pkg/manifest/manifest.go)

distribution.Descriptor and the two schema variants, reduced to the fields
tosi reads. The registry-client pointer held by manifest.Manifest is left
implicit: operations that use it take the corresponding request results as
parameters. -/

/-- distribution.Descriptor. -/
structure Descriptor where
  mediaType : String
  digest : String
  size : Int
deriving DecidableEq, Repr

/-- schema1.SignedManifest, reduced to Name, Tag, the FSLayers blob digests
in source order (topmost first, as References() returns them), and the
History V1Compatibility strings. -/
structure SignedManifestM where
  name : String
  tag : String
  fsLayerDigests : List String
  history : List String
deriving DecidableEq, Repr

/-- schema2.DeserializedManifest, reduced to the schema version, the config
digest and the layers array (bottom-most first). -/
structure DeserializedManifestM where
  schemaVersion : Nat
  configDigest : String
  layers : List Descriptor
deriving DecidableEq, Repr

/-- manifest.Manifest: Image, Tag, and the two nilable schema variants. -/
structure ManifestM where
  image : String
  tag : String
  manifestV1 : Option SignedManifestM
  manifestV2 : Option DeserializedManifestM
deriving DecidableEq, Repr

/-- schema1 MediaTypeManifestLayer, the media type References() attaches. -/
def manifestLayerMediaType : String :=
  "application/vnd.docker.container.image.rootfs.diff+x-gtar"

/-- schema1.SignedManifest.References(): one descriptor per FSLayer, with
size 0 (schema-1 carries no trustworthy size). -/
def references (m : SignedManifestM) : List Descriptor :=
  m.fsLayerDigests.map (fun d => ⟨manifestLayerMediaType, d, 0⟩)

/-- The loop body of manifest.v1Layers: append ref unless a descriptor with
the same digest was already emitted. -/
def dedupStep (refs : List Descriptor) (ref : Descriptor) : List Descriptor :=
  if refs.any (fun r => r.digest == ref.digest) then refs else refs ++ [ref]

/-- manifest.v1Layers: iterate References() from last to first (the index
loop runs from len-1 down to 0), skipping digests already emitted. -/
def v1Layers (m : SignedManifestM) : List Descriptor :=
  (references m).reverse.foldl dedupStep []

/-- manifest.v2Layers: the layers array, unchanged. -/
def v2Layers (m : DeserializedManifestM) : List Descriptor := m.layers

/-- manifest.Layers: schema-1 takes precedence; the "no manifest available"
panic branch is modeled as none. -/
def ManifestM.Layers (m : ManifestM) : Option (List Descriptor) :=
  match m.manifestV1 with
  | some m1 => some (v1Layers m1)
  | none =>
    match m.manifestV2 with
    | some m2 => some (v2Layers m2)
    | none => none

/-- strings.ReplaceAll(s, "/", ":"). -/
def replaceSlashWithColon (s : String) : String :=
  String.mk (s.data.map (fun c => if c == '/' then ':' else c))

/-- manifest.v1ID: "v1:Name:Tag" with slashes replaced by colons. -/
def v1ID (m : SignedManifestM) : String :=
  replaceSlashWithColon ("v1:" ++ m.name ++ ":" ++ m.tag)

/-- manifest.v2ID: "v2:" followed by the config digest. -/
def v2ID (m : DeserializedManifestM) : String := "v2:" ++ m.configDigest

/-- manifest.ID, with the panic branch modeled as none. -/
def ManifestM.ID (m : ManifestM) : Option String :=
  match m.manifestV1 with
  | some m1 => some (v1ID m1)
  | none =>
    match m.manifestV2 with
    | some m2 => some (v2ID m2)
    | none => none

/-- manifest.v1Config: the V1Compatibility string of the first history
entry; an empty history is an error. -/
def v1Config (m : SignedManifestM) : Except String String :=
  match m.history with
  | [] => .error "no config found"
  | h :: _ => .ok h

/-- manifest.Config: schema-2 fetches the config blob through the registry
client, abstracted as getBlob; the panic branch is modeled as none. -/
def ManifestM.Config (m : ManifestM) (getBlob : String → Except String String) :
    Option (Except String String) :=
  match m.manifestV1 with
  | some m1 => some (v1Config m1)
  | none =>
    match m.manifestV2 with
    | some m2 => some (getBlob m2.configDigest)
    | none => none

/-- manifest.Fetch: try the schema-2 manifest; on error or schema version 1
fetch the schema-1 manifest (failure there is fatal); the V2 field receives
whatever the schema-2 request returned (nil when it errored). -/
def Fetch (image tag : String)
    (manifestV2Result : Except String DeserializedManifestM)
    (manifestV1Result : Except String SignedManifestM) :
    Except String ManifestM :=
  match manifestV2Result with
  | .ok m2 =>
    if m2.schemaVersion == 1 then
      match manifestV1Result with
      | .error e => .error e
      | .ok m1 => .ok ⟨image, tag, some m1, some m2⟩
    else .ok ⟨image, tag, none, some m2⟩
  | .error _ =>
    match manifestV1Result with
    | .error e => .error e
    | .ok m1 => .ok ⟨image, tag, some m1, none⟩

/-- manifest.Load: read the repo:tag link target, try schema-1
deserialization (richer, fails cleanly on schema-2 payloads), then
schema-2; both failing is an error. -/
def Load (image tag : String)
    (readFileResult : Except String String)
    (unmarshalV1 : String → Except String SignedManifestM)
    (unmarshalV2 : String → Except String DeserializedManifestM) :
    Except String ManifestM :=
  match readFileResult with
  | .error e => .error e
  | .ok buf =>
    match unmarshalV1 buf with
    | .ok v1 => .ok ⟨image, tag, some v1, none⟩
    | .error _ =>
      match unmarshalV2 buf with
      | .ok v2 => .ok ⟨image, tag, none, some v2⟩
      | .error e => .error e

/-! ### Dedup lemmas for v1Layers -/

theorem dedupFold_digest_nodup (xs : List Descriptor) (acc : List Descriptor)
    (h : (acc.map Descriptor.digest).Nodup) :
    ((xs.foldl dedupStep acc).map Descriptor.digest).Nodup := by
  induction xs generalizing acc with
  | nil => simpa using h
  | cons x xs ih =>
    simp only [List.foldl_cons]
    apply ih
    unfold dedupStep
    by_cases hmem : acc.any (fun r => r.digest == x.digest)
    · simpa [hmem] using h
    · have hnot : x.digest ∉ acc.map Descriptor.digest := by
        simp only [List.any_eq_true, beq_iff_eq] at hmem
        simp only [List.mem_map]
        rintro ⟨r, hr, hrd⟩
        exact hmem ⟨r, hr, hrd⟩
      simp [hmem, List.nodup_append, h, hnot]

theorem dedupFold_digest_mem (xs acc : List Descriptor) (d : String) :
    d ∈ (xs.foldl dedupStep acc).map Descriptor.digest ↔
      d ∈ acc.map Descriptor.digest ∨ d ∈ xs.map Descriptor.digest := by
  induction xs generalizing acc with
  | nil => simp
  | cons x xs ih =>
    simp only [List.foldl_cons, List.map_cons, List.mem_cons]
    rw [ih]
    unfold dedupStep
    by_cases hmem : acc.any (fun r => r.digest == x.digest)
    · have hx : x.digest ∈ acc.map Descriptor.digest := by
        simp only [List.any_eq_true, beq_iff_eq] at hmem
        simp only [List.mem_map]
        exact hmem
      simp only [if_pos hmem]
      constructor
      · rintro (h | h)
        · exact Or.inl h
        · exact Or.inr (Or.inr h)
      · rintro (h | h | h)
        · exact Or.inl h
        · rw [h]; exact Or.inl hx
        · exact Or.inr h
    · simp only [if_neg hmem, List.map_append, List.mem_append,
        List.map_cons, List.mem_cons, List.map_nil, List.mem_singleton]
      tauto

theorem dedupFold_sublist (xs acc : List Descriptor) :
    ∃ s, xs.foldl dedupStep acc = acc ++ s ∧ s.Sublist xs := by
  induction xs generalizing acc with
  | nil => exact ⟨[], by simp, List.Sublist.refl []⟩
  | cons x xs ih =>
    simp only [List.foldl_cons]
    by_cases hmem : acc.any (fun r => r.digest == x.digest)
    · have hstep : dedupStep acc x = acc := by simp [dedupStep, hmem]
      rw [hstep]
      obtain ⟨s, hs, hsub⟩ := ih acc
      exact ⟨s, hs, hsub.cons x⟩
    · have hstep : dedupStep acc x = acc ++ [x] := by simp [dedupStep, hmem]
      rw [hstep]
      obtain ⟨s, hs, hsub⟩ := ih (acc ++ [x])
      refine ⟨x :: s, ?_, hsub.cons₂ x⟩
      rw [hs]
      simp

theorem references_digests (m : SignedManifestM) :
    (references m).map Descriptor.digest = m.fsLayerDigests := by
  simp [references, Function.comp_def]

/-- C5 counterexample: a schema-2 manifest whose layers array repeats a
digest; Layers() returns the array unchanged, so the digest "d0" appears
twice, contradicting "contains no digest twice" for every manifest. -/
theorem Layers_dedup_counterexample :
    ((ManifestM.Layers ⟨"img", "t", none,
        some ⟨2, "cfg", [⟨"mt", "d0", 1⟩, ⟨"mt", "d0", 1⟩]⟩⟩).getD []).map
      Descriptor.digest = ["d0", "d0"] ∧
    ¬ (["d0", "d0"] : List String).Nodup := by
  exact ⟨rfl, by simp⟩

/-- C5 (amended): Layers() of a schema-1 manifest iterates the source
reference list from last to first skipping digests already emitted, so it
is a subsequence of the reversed reference list, covers exactly the source
digests, and contains no digest twice; for a schema-2 manifest the layers
array is returned unchanged (duplicates present in the manifest are
preserved). -/
theorem Layers_order_rules (m : ManifestM) :
    (∀ m1, m.manifestV1 = some m1 →
      m.Layers = some (v1Layers m1) ∧
      (v1Layers m1).Sublist (references m1).reverse ∧
      ((v1Layers m1).map Descriptor.digest).Nodup ∧
      (∀ d, d ∈ (v1Layers m1).map Descriptor.digest ↔ d ∈ m1.fsLayerDigests)) ∧
    (m.manifestV1 = none → ∀ m2, m.manifestV2 = some m2 →
      m.Layers = some m2.layers) := by
  constructor
  · intro m1 h1
    refine ⟨by simp [ManifestM.Layers, h1], ?_, ?_, ?_⟩
    · obtain ⟨s, hs, hsub⟩ := dedupFold_sublist (references m1).reverse []
      unfold v1Layers
      rw [hs]
      simpa using hsub
    · exact dedupFold_digest_nodup _ [] (by simp)
    · intro d
      unfold v1Layers
      rw [dedupFold_digest_mem]
      simp [references_digests]
  · intro h1 m2 h2
    simp [ManifestM.Layers, h1, h2, v2Layers]

/-- Witness for C5 (amended): a schema-1 manifest with references
["a", "b", "a"] (topmost first) yields a manifest whose layer digests are
deduplicated. -/
theorem Layers_order_rules_witness :
    ManifestM.Layers ⟨"img", "t", some ⟨"n", "tg", ["a", "b", "a"], []⟩, none⟩ =
      some (v1Layers ⟨"n", "tg", ["a", "b", "a"], []⟩) ∧
    ((v1Layers ⟨"n", "tg", ["a", "b", "a"], []⟩).map Descriptor.digest).Nodup ∧
    (v1Layers ⟨"n", "tg", ["a", "b", "a"], []⟩).map Descriptor.digest = ["a", "b"] := by
  have h := (Layers_order_rules
      ⟨"img", "t", some ⟨"n", "tg", ["a", "b", "a"], []⟩, none⟩).1
    ⟨"n", "tg", ["a", "b", "a"], []⟩ rfl
  exact ⟨h.1, h.2.2.1, by rfl⟩

/-- C9: every manifest returned without error by Fetch or by Load has at
least one schema variant non-nil, so the "no manifest available" panic
branches (modeled as none) in Config, Layers and ID are unreachable for
manifests obtained through those two constructors. -/
theorem Fetch_Load_variant_nonnil (image tag : String)
    (v2r : Except String DeserializedManifestM)
    (v1r : Except String SignedManifestM)
    (readr : Except String String)
    (u1 : String → Except String SignedManifestM)
    (u2 : String → Except String DeserializedManifestM)
    (getBlob : String → Except String String) :
    (∀ m, Fetch image tag v2r v1r = .ok m →
      (m.manifestV1.isSome ∨ m.manifestV2.isSome) ∧
      (m.Layers).isSome ∧ (m.ID).isSome ∧ (m.Config getBlob).isSome) ∧
    (∀ m, Load image tag readr u1 u2 = .ok m →
      (m.manifestV1.isSome ∨ m.manifestV2.isSome) ∧
      (m.Layers).isSome ∧ (m.ID).isSome ∧ (m.Config getBlob).isSome) := by
  constructor
  · intro m hm
    unfold Fetch at hm
    repeat' split at hm
    all_goals (try (exact (Except.noConfusion hm)))
    all_goals injection hm with hm
    all_goals subst hm
    all_goals simp [ManifestM.Layers, ManifestM.ID, ManifestM.Config]
  · intro m hm
    unfold Load at hm
    repeat' split at hm
    all_goals (try (exact (Except.noConfusion hm)))
    all_goals injection hm with hm
    all_goals subst hm
    all_goals simp [ManifestM.Layers, ManifestM.ID, ManifestM.Config]

/-- Witness for C9: a schema-2 fetch result with schema version 2 and a
failing schema-1 request yields a manifest with the V2 variant set and a
usable Layers(). -/
theorem Fetch_Load_variant_nonnil_witness :
    Fetch "img" "t" (.ok ⟨2, "cfg", []⟩) (.error "e") =
      .ok ⟨"img", "t", none, some ⟨2, "cfg", []⟩⟩ ∧
    ((⟨"img", "t", none, some ⟨2, "cfg", []⟩⟩ : ManifestM).Layers).isSome := by
  have h := (Fetch_Load_variant_nonnil "img" "t" (.ok ⟨2, "cfg", []⟩)
      (.error "e") (.error "r") (fun _ => .error "u1") (fun _ => .error "u2")
      (fun _ => .error "g")).1
    ⟨"img", "t", none, some ⟨2, "cfg", []⟩⟩ rfl
  exact ⟨rfl, h.2.1⟩

/-! ## util.AtomicWriteFile (src/pkg/util/file.go)

The filesystem is reduced to the content of the target file and the
temporary directory created by ioutil.TempDir; step outcomes are injected
as flags. The deferred os.RemoveAll(tmpdir) runs on every return path. -/

structure AWFInput where
  tmpdirOk : Bool
  writeOk : Bool
  renameOk : Bool
deriving DecidableEq, Repr

structure AWFOutcome where
  target : Option (List Nat)
  tmpDirLeft : Bool
  renamesDone : Nat
  success : Bool
deriving DecidableEq, Repr

/-- util.AtomicWriteFile: create a fresh temporary sibling directory, write
buf to a file inside it, rename that file over the target; the deferred
RemoveAll removes the temporary directory on every path. -/
def AtomicWriteFile (inp : AWFInput) (prev : Option (List Nat))
    (buf : List Nat) : AWFOutcome :=
  if !inp.tmpdirOk then ⟨prev, false, 0, false⟩
  else if !inp.writeOk then ⟨prev, false, 0, false⟩
  else if !inp.renameOk then ⟨prev, false, 0, false⟩
  else ⟨some buf, false, 1, true⟩

/-- C10: on success the target file contains exactly buf, installed by a
single rename from the file written inside the fresh temporary directory;
on error the previous content of the target (or its absence) is unchanged;
in both cases the temporary directory is removed, so no partially written
file is left at or beside the target name. -/
theorem AtomicWriteFile_atomic (inp : AWFInput) (prev : Option (List Nat))
    (buf : List Nat) :
    ((AtomicWriteFile inp prev buf).success = true →
      (AtomicWriteFile inp prev buf).target = some buf ∧
      (AtomicWriteFile inp prev buf).renamesDone = 1) ∧
    ((AtomicWriteFile inp prev buf).success = false →
      (AtomicWriteFile inp prev buf).target = prev) ∧
    (AtomicWriteFile inp prev buf).tmpDirLeft = false := by
  unfold AtomicWriteFile
  rcases inp with ⟨t, w, r⟩
  cases t <;> cases w <;> cases r <;> simp

/-- Witness for C10: with every step succeeding, the target holds the
written buffer. -/
theorem AtomicWriteFile_atomic_witness :
    (AtomicWriteFile ⟨true, true, true⟩ none [7]).success = true ∧
    (AtomicWriteFile ⟨true, true, true⟩ none [7]).target = some [7] :=
  ⟨rfl, ((AtomicWriteFile_atomic ⟨true, true, true⟩ none [7]).1 rfl).1⟩

/-! ## registryclient.SaveBlob (embedded registryclient sources)

The blob stream is modeled as the full byte list the registry returns (or
a transport error); the digest verifier is hashFn applied to the bytes
written; streamed counts the bytes copied from the registry. The deferred
os.RemoveAll(tmpdir) runs on every return path. -/

structure SaveBlobInput where
  cached : Option (List Nat)
  validateCachedLayers : Bool
  tmpdirOk : Bool
  download : Except String (List Nat)
  createOk : Bool
  renameOk : Bool
deriving Repr

structure SaveBlobOutcome where
  target : Option (List Nat)
  tmpDirLeft : Bool
  streamed : Nat
  result : Except String Unit
deriving Repr

/-- The download-and-verify path of SaveBlob, taken when the blob is not
already cached (or cache validation rejected it): stream into a file in a
fresh temporary directory, reject when fewer than desc.size bytes were
written or the verifier fails, then rename over the target. -/
def SaveBlobDownload (hashFn : List Nat → String) (desc : Descriptor)
    (inp : SaveBlobInput) : SaveBlobOutcome :=
  if !inp.tmpdirOk then ⟨inp.cached, false, 0, .error "tempdir"⟩
  else
    match inp.download with
    | .error e => ⟨inp.cached, false, 0, .error e⟩
    | .ok content =>
      if !inp.createOk then ⟨inp.cached, false, 0, .error "create"⟩
      else if (content.length : Int) < desc.size then
        ⟨inp.cached, false, content.length, .error "size"⟩
      else if hashFn content != desc.digest then
        ⟨inp.cached, false, content.length, .error "verifier"⟩
      else if !inp.renameOk then
        ⟨inp.cached, false, content.length, .error "rename"⟩
      else ⟨some content, false, content.length, .ok ()⟩

/-- registryclient.SaveBlob: return the cached blob when present (and
valid, when validation is on); otherwise download and verify. -/
def SaveBlob (hashFn : List Nat → String) (desc : Descriptor)
    (inp : SaveBlobInput) : SaveBlobOutcome :=
  match inp.cached with
  | some content =>
    if !inp.validateCachedLayers || (hashFn content == desc.digest) then
      ⟨some content, false, 0, .ok ()⟩
    else SaveBlobDownload hashFn desc inp
  | none => SaveBlobDownload hashFn desc inp

/-- A hash function distinguishing the empty stream, standing in for
sha256 at the two concrete points the counterexample needs. -/
def emptyHashFn : List Nat → String :=
  fun c => if c.isEmpty then "sha256:e3b0" else "sha256:other"

/-- C2 counterexample: a schema-1 style descriptor with size 0 whose digest
is the hash of the empty stream; SaveBlob succeeds after streaming 0 bytes
(the size check n < 0 never fires and no 1-byte minimum exists in the
code), contradicting the claimed minimum of 1 byte when size is 0. -/
theorem SaveBlob_zero_byte_counterexample :
    (SaveBlob emptyHashFn ⟨"mt", "sha256:e3b0", 0⟩
        ⟨none, false, true, .ok [], true, true⟩).result = .ok () ∧
    ¬ 1 ≤ (SaveBlob emptyHashFn ⟨"mt", "sha256:e3b0", 0⟩
        ⟨none, false, true, .ok [], true, true⟩).streamed := by
  constructor
  · rfl
  · decide

/-- C2 (amended): when the blob is not already cached, SaveBlob succeeds
only if the bytes streamed from the registry are at least desc.size — with
size 0 (the schema-1 case) any byte count, including 0, passes — and the
streamed content hashes to the descriptor digest; on success the blob is
installed at the target by the final rename; on any failure no file
appears at the target and the temporary directory is removed. -/
theorem SaveBlob_download_contract (hashFn : List Nat → String)
    (desc : Descriptor) (v td cr rn : Bool) (dl : Except String (List Nat)) :
    ((SaveBlob hashFn desc ⟨none, v, td, dl, cr, rn⟩).result = .ok () →
      ∃ content, dl = .ok content ∧
        desc.size ≤ (content.length : Int) ∧
        hashFn content = desc.digest ∧
        (SaveBlob hashFn desc ⟨none, v, td, dl, cr, rn⟩).target = some content ∧
        (SaveBlob hashFn desc ⟨none, v, td, dl, cr, rn⟩).streamed =
          content.length) ∧
    (∀ e, (SaveBlob hashFn desc ⟨none, v, td, dl, cr, rn⟩).result = .error e →
      (SaveBlob hashFn desc ⟨none, v, td, dl, cr, rn⟩).target = none) ∧
    (SaveBlob hashFn desc ⟨none, v, td, dl, cr, rn⟩).tmpDirLeft = false := by
  unfold SaveBlob SaveBlobDownload
  cases td
  · simp
  · cases dl with
    | error e => simp
    | ok content =>
      cases cr
      · simp
      · by_cases hsz : (content.length : Int) < desc.size
        · simp [hsz]
        · by_cases hh : hashFn content = desc.digest
          · cases rn
            · simp [hsz, hh]
            · simp [hsz, hh]
              exact le_of_not_lt hsz
          · simp [hsz, bne_iff_ne, hh]

/-- Witness for C2 (amended): a 2-byte blob matching both the size and the
digest is installed. -/
theorem SaveBlob_download_contract_witness :
    ∃ content, (Except.ok [5, 6] : Except String (List Nat)) = .ok content ∧
      (⟨"mt", "sha256:other", 2⟩ : Descriptor).size ≤ (content.length : Int) ∧
      emptyHashFn content = (⟨"mt", "sha256:other", 2⟩ : Descriptor).digest ∧
      (SaveBlob emptyHashFn ⟨"mt", "sha256:other", 2⟩
        ⟨none, false, true, .ok [5, 6], true, true⟩).target = some content ∧
      (SaveBlob emptyHashFn ⟨"mt", "sha256:other", 2⟩
        ⟨none, false, true, .ok [5, 6], true, true⟩).streamed = content.length :=
  (SaveBlob_download_contract emptyHashFn ⟨"mt", "sha256:other", 2⟩
      false true true true (.ok [5, 6])).1 (by rfl)

/-! ## Store.unpackLayer in atomic mode (the store sources, part_002)

The per-layer directory content is abstracted to absent / an incomplete
tree / a fully extracted tree; step outcomes are injected as flags. In the
Go code the error of archive.Untar is assigned to err and then immediately
overwritten by the os.Rename result, and the function ends with return
nil, so a Untar failure is never returned. -/

inductive LayerTree where
  | absent
  | incompleteTree
  | fullTree
deriving DecidableEq, Repr

structure UnpackInput where
  openOk : Bool
  mkdirTmpOk : Bool
  untarOk : Bool
  renameOk : Bool
deriving DecidableEq, Repr

/-- Store.unpackLayer with atomic=true: extract into the dot-prefixed
sibling directory, then rename the sibling over the final name; returns
the final-directory content and the returned error. -/
def unpackLayerAtomic (inp : UnpackInput) : LayerTree × Option String :=
  if !inp.openOk then (.absent, some "open")
  else if !inp.mkdirTmpOk then (.absent, some "mkdir")
  else
    let extracted :=
      if inp.untarOk then LayerTree.fullTree else LayerTree.incompleteTree
    if !inp.renameOk then (.absent, some "rename")
    else (extracted, none)

/-- C1: the code contradicts the claim — when tar extraction fails in
atomic mode, unpackLayer still renames the partially extracted sibling
over the final name and returns nil (the Untar error is overwritten by the
Rename result and the function ends with return nil), so a non-dot-prefixed
entry under overlays/ can be a partial tree. -/
theorem unpackLayerAtomic_partial_promoted :
    unpackLayerAtomic ⟨true, true, false, true⟩ =
      (LayerTree.incompleteTree, none) := rfl

/-! ## Store.createShortLink (the store sources, part_002)

State: the set of names in the overlay directory and the content of the
path.link file. os.Symlink fails exactly when an entry with the link name
already exists. In the Go retry loop every path of the first iteration
returns — a symlink collision is only logged, there is no continue — so
the fresh-token retry and the giving-up error are unreachable; randomString
is modeled as a stream of tokens indexed by attempt. -/

structure ShortLinkFS where
  entries : List String
  linkFileContent : Option String
deriving DecidableEq, Repr

/-- os.Symlink(path, link): fails iff an entry named link exists. -/
def symlinkOp (st : ShortLinkFS) (link : String) : ShortLinkFS × Bool :=
  if st.entries.contains link then (st, false)
  else ({ st with entries := link :: st.entries }, true)

/-- Store.createShortLink: early return when path.link exists; otherwise
one pass of the loop body — symlink (failure only logged), atomic write of
the .link file (on write failure os.Remove(link) and return the error). -/
def createShortLink (tokens : Nat → String) (atomicWriteOk : Bool)
    (st : ShortLinkFS) : ShortLinkFS × Except String Unit :=
  if st.linkFileContent.isSome then (st, .ok ())
  else
    let link := tokens 0
    let st1 := (symlinkOp st link).1
    if atomicWriteOk then
      ({ st1 with linkFileContent := some link }, .ok ())
    else
      ({ st1 with entries := st1.entries.erase link }, .error "write .link")

/-- C4: the code contradicts the claim — when the generated token collides
with an existing entry, createShortLink does not retry with a fresh token:
the collision is only logged, the colliding token is written to the .link
file and the call succeeds without creating any new symlink. -/
theorem createShortLink_no_retry :
    createShortLink (fun _ => "tok0") true ⟨["tok0"], none⟩ =
      (⟨["tok0"], some "tok0"⟩, .ok ()) := by rfl

/-! ## Store.Mount directory checks (the store sources, part_002)

The three util.IsEmptyDir results are injected as booleans. The third Go
check tests the upper directory again while its error message names the
work directory; extraction and the mount call happen only past these
checks. MkdirAll failures return even earlier and are not modeled. -/

/-- The emptiness-check prelude of Store.Mount, in source order. -/
def mountDirChecks (destEmpty upperEmpty workEmpty : Bool) :
    Except String Unit :=
  if !destEmpty then .error "mount dir is not empty or accessible"
  else if !upperEmpty then .error "overlayfs dir .upper is not empty or accessible"
  else if !upperEmpty then .error "overlayfs dir .work is not empty or accessible"
  else .ok ()

/-- C6: the code contradicts the claim — with dest and dest.upper empty but
dest.work non-empty, Mount proceeds to extraction and the mount primitive:
the third emptiness check re-tests dest.upper (while its error message
names dest.work), so work-directory emptiness is never enforced. -/
theorem mountDirChecks_work_unchecked :
    mountDirChecks true true false = .ok () := rfl

/-! ## Worker-pool size (NewStore and pullLayers, the store sources) -/

/-- NewStore: a negative parallelism argument is clamped to 1 before being
stored in parallelDownloads. -/
def NewStoreParallelism (parallelism : Int) : Int :=
  if parallelism < 0 then 1 else parallelism

/-- pullLayers: a stored parallelDownloads of at most 0 becomes
len(layers). -/
def pullLayersWorkerCount (parallelDownloads : Int) (numLayers : Nat) : Int :=
  if parallelDownloads ≤ 0 then (numLayers : Int) else parallelDownloads

/-- The number of workers pullLayers launches for a parallelism value p
configured through NewStore, on an image with n layers. -/
def workersLaunched (p : Int) (n : Nat) : Int :=
  pullLayersWorkerCount (NewStoreParallelism p) n

/-- C7 counterexample: for configured parallelism -1 and 3 layers the pool
has 1 worker, not 3 as the claim states for p ≤ 0. -/
theorem workersLaunched_negative_counterexample :
    workersLaunched (-1) 3 = 1 ∧ workersLaunched (-1) 3 ≠ 3 := by
  constructor <;> decide

/-- C7 (amended): the pool size is p when p > 0, n when p = 0 (pullLayers
turns a stored 0 into the layer count) and 1 when p < 0 (NewStore clamps a
negative argument to 1 before pullLayers sees it). -/
theorem workersLaunched_rules (p : Int) (n : Nat) :
    (0 < p → workersLaunched p n = p) ∧
    (p = 0 → workersLaunched p n = (n : Int)) ∧
    (p < 0 → workersLaunched p n = 1) := by
  unfold workersLaunched pullLayersWorkerCount NewStoreParallelism
  refine ⟨fun h => ?_, fun h => ?_, fun h => ?_⟩
  · rw [if_neg (by omega), if_neg (by omega)]
  · subst h
    simp
  · rw [if_pos h, if_neg (by norm_num)]

/-- Witness for C7 (amended): pool sizes at parallelism 5, 0 and -2 with 3
layers. -/
theorem workersLaunched_rules_witness :
    workersLaunched 5 3 = 5 ∧ workersLaunched 0 3 = 3 ∧
      workersLaunched (-2) 3 = 1 :=
  ⟨(workersLaunched_rules 5 3).1 (by decide),
   (workersLaunched_rules 0 3).2.1 rfl,
   (workersLaunched_rules (-2) 3).2.2 (by decide)⟩

/-! ## Store.Pull (the store sources, part_002)

The worker pool is embedded sequentially: pullLayers sends every layer
descriptor on a channel of capacity len(layers), the producer reads
len(layers) results, and every per-layer error is appended to the
multierror aggregate, so the aggregate is the list of failures of all
layers. The per-layer outcome (SaveBlob + unpackLayer + createShortLink)
is abstracted as layerResult: none on success, some err on failure. The
trace records the actions Pull performs, in order. -/

inductive PullAction where
  | processLayer (d : Descriptor)
  | saveManifest
  | saveConfig
deriving DecidableEq, Repr

/-- The aggregate multierror of pullLayers: the per-layer failures of all
layers (empty means success). -/
def pullLayersErrors (layerResult : Descriptor → Option String)
    (layers : List Descriptor) : List String :=
  layers.filterMap layerResult

/-- Store.Pull after a successful manifest fetch: pull all layers, then —
only if no layer failed — save the manifest and, when the config is not
cached yet, the config, in that order. -/
def Pull (layerResult : Descriptor → Option String) (layers : List Descriptor)
    (saveManifestOk : Bool) (configCached : Bool) (saveConfigOk : Bool) :
    List PullAction × Except (List String) Unit :=
  let trace := layers.map PullAction.processLayer
  let errs := pullLayersErrors layerResult layers
  if errs.isEmpty then
    if saveManifestOk then
      if configCached then (trace ++ [.saveManifest], .ok ())
      else if saveConfigOk then
        (trace ++ [.saveManifest, .saveConfig], .ok ())
      else (trace ++ [.saveManifest, .saveConfig], .error ["saveConfig"])
    else (trace ++ [.saveManifest], .error ["saveManifest"])
  else (trace, .error errs)

/-- The action trace of Pull always starts with every layer, followed by
the saves the control flow allows. -/
theorem Pull_trace_shape (layerResult : Descriptor → Option String)
    (layers : List Descriptor) (smOk cc scOk : Bool) :
    (Pull layerResult layers smOk cc scOk).1 =
      layers.map PullAction.processLayer ++
        (if (pullLayersErrors layerResult layers).isEmpty then
          (if smOk && !cc then [PullAction.saveManifest, PullAction.saveConfig]
           else [PullAction.saveManifest])
         else []) := by
  unfold Pull
  by_cases he : (pullLayersErrors layerResult layers).isEmpty <;>
    cases smOk <;> cases cc <;> cases scOk <;> simp [he]

/-- C3: a failing layer does not stop the others — every layer descriptor
is processed, all per-layer errors are aggregated into one multierror, and
when any layer failed Pull returns that aggregate without saving the
manifest or the config; the config save happens only when every layer
succeeded, strictly after the manifest save. -/
theorem Pull_error_aggregation (layerResult : Descriptor → Option String)
    (layers : List Descriptor) (smOk cc scOk : Bool) :
    (∀ d ∈ layers,
      PullAction.processLayer d ∈ (Pull layerResult layers smOk cc scOk).1) ∧
    (pullLayersErrors layerResult layers ≠ [] →
      (Pull layerResult layers smOk cc scOk).2 =
        .error (pullLayersErrors layerResult layers) ∧
      PullAction.saveManifest ∉ (Pull layerResult layers smOk cc scOk).1 ∧
      PullAction.saveConfig ∉ (Pull layerResult layers smOk cc scOk).1) ∧
    (PullAction.saveConfig ∈ (Pull layerResult layers smOk cc scOk).1 →
      pullLayersErrors layerResult layers = [] ∧
      (Pull layerResult layers smOk cc scOk).1 =
        layers.map PullAction.processLayer ++ [.saveManifest, .saveConfig]) := by
  refine ⟨?_, ?_, ?_⟩
  · intro d hd
    rw [Pull_trace_shape]
    exact List.mem_append_left _ (List.mem_map_of_mem _ hd)
  · intro hne
    have hf : (pullLayersErrors layerResult layers).isEmpty = false := by
      cases hcase : pullLayersErrors layerResult layers with
      | nil => exact absurd hcase hne
      | cons a l => rfl
    refine ⟨?_, ?_, ?_⟩
    · unfold Pull
      simp [hf]
    · rw [Pull_trace_shape]
      simp [hf, List.mem_map]
    · rw [Pull_trace_shape]
      simp [hf, List.mem_map]
  · intro hsc
    rw [Pull_trace_shape] at hsc
    by_cases he : (pullLayersErrors layerResult layers).isEmpty
    · have he' : pullLayersErrors layerResult layers = [] :=
        List.isEmpty_iff.mp he
      refine ⟨he', ?_⟩
      rw [Pull_trace_shape]
      simp only [he, if_true] at hsc ⊢
      cases smOk <;> cases cc <;> simp_all [List.mem_map]
    · have hf : (pullLayersErrors layerResult layers).isEmpty = false := by
        simpa using he
      simp [hf, List.mem_map] at hsc

/-- Witness for C3: with two layers of which the first fails, Pull reports
the aggregate ["boom"], still processes the second layer, and saves
nothing. -/
theorem Pull_error_aggregation_witness :
    (Pull (fun d => if d.digest == "bad" then some "boom" else none)
        [⟨"mt", "bad", 1⟩, ⟨"mt", "good", 1⟩] true false true).2 =
      .error ["boom"] ∧
    PullAction.processLayer ⟨"mt", "good", 1⟩ ∈
      (Pull (fun d => if d.digest == "bad" then some "boom" else none)
        [⟨"mt", "bad", 1⟩, ⟨"mt", "good", 1⟩] true false true).1 := by
  have h := Pull_error_aggregation
    (fun d => if d.digest == "bad" then some "boom" else none)
    [⟨"mt", "bad", 1⟩, ⟨"mt", "good", 1⟩] true false true
  have h1 := (h.2.1 (by decide)).1
  have h2 : pullLayersErrors
      (fun d => if d.digest == "bad" then some "boom" else none)
      [⟨"mt", "bad", 1⟩, ⟨"mt", "good", 1⟩] = ["boom"] := by decide
  rw [h2] at h1
  exact ⟨h1, h.1 ⟨"mt", "good", 1⟩ (by decide)⟩

end Tosi
